import Mathlib

/-!
Verification of the knapsack linear solver (`src/app.py`).

The program allocates catalog products to shelters: for each shelter it
builds a CP model (one integer quantity/volume/price contribution variable
and one boolean indicator per product, reified links between them, global
volume bounds, an exact price target, per-category count restrictions) and,
on an optimal solve, extracts the selected rows and reports their totals.

The definitions below are a shallow embedding of `app.py`:
  * `sortProducts`           — the sort in `__load_products` (lines 17-18);
  * `prodsTypeTable`         — the per-type (start, end) table built at the
                                top of `__product_type_restrictions`
                                (lines 31-37, pandas `drop_duplicates`
                                with `keep='first'` / `keep='last'`);
  * `product_type_restrictions` — the constraint-emission loop
                                (lines 40-47), `none` modelling the
                                `KeyError` raised by `shelter[row[0]]`;
  * `Feasible`               — satisfaction of every constraint added by
                                `__linear_solver` (lines 79-117);
  * `selectedIdx`, `reported_sum_p/v/w` — the extraction and totals of
                                `__solution_prepare` (lines 52-66);
  * `interpretStatus`, `runShelters`, `accumulate`, `finalize`, `solveRun`
                             — the status dispatch of `__linear_solver`
                                (lines 120-127) and the accumulation loop
                                of `solve` (lines 141-151).
-/

namespace KnapsackApp

/-- A row of the products table after `__load_products` has scaled
`product_volume` by `volume_factor` and truncated it to an integer. -/
structure Product where
  article : Nat
  product_type : String
  convenience_value : Int
  product_volume : Int
  product_price : Int
deriving DecidableEq, Repr

instance : Inhabited Product := ⟨⟨0, "", 0, 0, 0⟩⟩

/-- The scalar options read from `config.yaml`. -/
structure Config where
  volume_factor : Int
  volume_min : Int
  volume_max : Int
  price_meet : Int
deriving DecidableEq, Repr

/-- A shelter's restriction dict: category label ↦ parsed rule list
(the hyphen-split integer list built in `__load_products`, lines 21-23). -/
abbrev Shelter := List (String × List Int)

/-- Dict lookup `shelter[t]`; `none` models the `KeyError` path. -/
def lookupRule (shelter : Shelter) (t : String) : Option (List Int) :=
  (shelter.find? (fun e => e.1 == t)).map (fun e => e.2)

/-- The sort key of `products.sort_values(['product_type', 'article'])`:
primary key `product_type`, secondary key `article`. -/
def prodLE (a b : Product) : Prop :=
  a.product_type < b.product_type ∨
    (a.product_type = b.product_type ∧ a.article ≤ b.article)

instance : DecidableRel prodLE := fun a b => by
  unfold prodLE; infer_instance

instance : IsTotal Product prodLE :=
  ⟨fun a b => by
    rcases lt_trichotomy a.product_type b.product_type with h | h | h
    · exact Or.inl (Or.inl h)
    · rcases Nat.le_total a.article b.article with h' | h'
      · exact Or.inl (Or.inr ⟨h, h'⟩)
      · exact Or.inr (Or.inr ⟨h.symm, h'⟩)
    · exact Or.inr (Or.inl h)⟩

instance : IsTrans Product prodLE :=
  ⟨fun a b c hab hbc => by
    rcases hab with h1 | ⟨h1, h1'⟩ <;> rcases hbc with h2 | ⟨h2, h2'⟩
    · exact Or.inl (h1.trans h2)
    · exact Or.inl (h2 ▸ h1)
    · exact Or.inl (h1 ▸ h2)
    · exact Or.inr ⟨h1.trans h2, h1'.trans h2'⟩⟩

/-- `products.sort_values(['product_type', 'article'])` followed by
`reset_index(drop=True)`: the sorted catalog, positions re-indexed from 0
(list positions). -/
def sortProducts (l : List Product) : List Product :=
  l.insertionSort prodLE

/-- Index of the first row of type `t`: the `'start'` column produced by
`drop_duplicates(subset='product_type', keep='first')` + `reset_index`. -/
def startIdx (l : List Product) (t : String) : Nat :=
  l.findIdx (fun p => p.product_type == t)

/-- Index of the last row of type `t`: the `'end'` column produced by
`drop_duplicates(subset='product_type', keep='last')` + `reset_index`.
Note this is the position OF the last occurrence, not one past it. -/
def lastIdx (l : List Product) (t : String) : Nat :=
  l.length - 1 - l.reverse.findIdx (fun p => p.product_type == t)

/-- The distinct `product_type` values in order of first occurrence
(the row order of the `drop_duplicates(keep='first')` frame). -/
def typesInOrder (l : List Product) : List String :=
  l.foldl (fun acc p =>
    if acc.contains p.product_type then acc else acc ++ [p.product_type]) []

/-- The merged `prods_type` table of `__product_type_restrictions`
(lines 31-37): one `(product_type, start, end)` row per category. -/
def prodsTypeTable (l : List Product) : List (String × Nat × Nat) :=
  (typesInOrder l).map (fun t => (t, startIdx l t, lastIdx l t))

/-- One emitted category constraint over the boolean indicators:
either `lo <= sum(bools[s:e]) <= hi` or `sum(bools[s:e]) == n`. -/
inductive CatC where
  | range (s e : Nat) (lo hi : Int)
  | exact (s e : Nat) (n : Int)
deriving DecidableEq, Repr

/-- `sum(bools[s:e])` — the Python slice excludes index `e`. -/
def boolSum (bools : List Bool) (s e : Nat) : Int :=
  (((bools.drop s).take (e - s)).map (fun b => if b then (1 : Int) else 0)).sum

/-- Satisfaction of one emitted category constraint. -/
def CatC.sat (bools : List Bool) : CatC → Prop
  | .range s e lo hi => lo ≤ boolSum bools s e ∧ boolSum bools s e ≤ hi
  | .exact s e n => boolSum bools s e = n

instance (bools : List Bool) (c : CatC) : Decidable (c.sat bools) :=
  match c with
  | .range _ _ _ _ => inferInstanceAs (Decidable (_ ∧ _))
  | .exact _ _ _ => inferInstanceAs (Decidable (_ = _))

/-- The emission loop over `prods_type.values` (lines 40-47).  For each
catalog category the shelter dict is indexed; a missing key raises
`KeyError` (modelled by `none`).  `len(shelter[row[0]]) > 1` selects the
range form, otherwise the exact form with the single value. -/
def emitRestrictions (pt : List (String × Nat × Nat)) (shelter : Shelter) :
    Option (List CatC) :=
  match pt with
  | [] => some []
  | (t, s, e) :: rest =>
    match lookupRule shelter t with
    | none => none
    | some rule =>
      match emitRestrictions rest shelter with
      | none => none
      | some cs =>
        if 1 < rule.length then
          some (CatC.range s e (rule.getD 0 0) (rule.getD 1 0) :: cs)
        else
          some (CatC.exact s e (rule.getD 0 0) :: cs)

/-- `__product_type_restrictions(model, products, bools, shelter)`:
derive the per-type table, then emit one constraint group per category. -/
def product_type_restrictions (products : List Product) (shelter : Shelter) :
    Option (List CatC) :=
  emitRestrictions (prodsTypeTable products) shelter

/-- Values of all solver variables of one shelter's model: the integer
`vars_p`, `vars_v`, `vars_w` and the boolean indicators `bools`. -/
structure Assignment where
  vars_p : List Int
  vars_v : List Int
  vars_w : List Int
  bools : List Bool
deriving DecidableEq, Repr

/-- The objective `model.Maximize(sum(vars_p))`. -/
def objVal (a : Assignment) : Int := a.vars_p.sum

/-- The assignment satisfies every constraint of the model built by
`__linear_solver` (lines 79-117): variable domains `[0, p_i]`, `[0, v_i]`,
`[0, w_i]`; volume bounds and the exact price target; the reified links
between indicators and contribution variables; and the category
restrictions (which must have been emitted without a `KeyError`). -/
def Feasible (products : List Product) (config : Config) (shelter : Shelter)
    (a : Assignment) : Prop :=
  a.vars_p.length = products.length ∧
  a.vars_v.length = products.length ∧
  a.vars_w.length = products.length ∧
  a.bools.length = products.length ∧
  (∀ i < products.length,
    0 ≤ a.vars_p.getD i 0 ∧
      a.vars_p.getD i 0 ≤ (products.getD i default).convenience_value) ∧
  (∀ i < products.length,
    0 ≤ a.vars_v.getD i 0 ∧
      a.vars_v.getD i 0 ≤ (products.getD i default).product_volume) ∧
  (∀ i < products.length,
    0 ≤ a.vars_w.getD i 0 ∧
      a.vars_w.getD i 0 ≤ (products.getD i default).product_price) ∧
  config.volume_min * config.volume_factor ≤ a.vars_v.sum ∧
  a.vars_v.sum ≤ config.volume_max * config.volume_factor ∧
  a.vars_w.sum = config.price_meet ∧
  (∀ i < products.length,
    (a.bools.getD i false = true → 0 < a.vars_p.getD i 0) ∧
      (a.bools.getD i false = false → a.vars_p.getD i 0 < 1)) ∧
  (∀ i < products.length,
    (a.bools.getD i false = true →
        a.vars_v.getD i 0 = (products.getD i default).product_volume) ∧
      (a.bools.getD i false = false → a.vars_v.getD i 0 = 0)) ∧
  (∀ i < products.length,
    (a.bools.getD i false = true →
        a.vars_w.getD i 0 = (products.getD i default).product_price) ∧
      (a.bools.getD i false = false → a.vars_w.getD i 0 = 0)) ∧
  (∃ cs, product_type_restrictions products shelter = some cs ∧
    ∀ c ∈ cs, c.sat a.bools)

/-- The assignment the engine returns on status `OPTIMAL` (= 4): feasible
and of maximal objective value. -/
def OptimalFor (products : List Product) (config : Config) (shelter : Shelter)
    (a : Assignment) : Prop :=
  Feasible products config shelter a ∧
    ∀ b, Feasible products config shelter b → objVal b ≤ objVal a

/-- The `idx` list of `__solution_prepare` (lines 52-55): indices whose
`vars_p` value is strictly positive. -/
def selectedIdx (n : Nat) (a : Assignment) : List Nat :=
  (List.range n).filter (fun i => decide (0 < a.vars_p.getD i 0))

/-- The selected set as the spec prescribes it (§4.4 "read the boolean
indicator values; the set of indices with a true value is the selected
set"). -/
def specSelectedIdx (n : Nat) (a : Assignment) : List Nat :=
  (List.range n).filter (fun i => a.bools.getD i false)

/-- `products[products.index.isin(idx)]`: the selected catalog rows, in
catalog order (the `idx` list is ascending). -/
def selectedRows (products : List Product) (a : Assignment) : List Product :=
  (selectedIdx products.length a).map (fun i => products.getD i default)

/-- `prods['convenience_value'].sum()` in `__solution_prepare`. -/
def reported_sum_p (products : List Product) (a : Assignment) : Int :=
  ((selectedRows products a).map (fun p => p.convenience_value)).sum

/-- `prods['product_volume'].sum()` (an integer, volumes being
pre-scaled). -/
def reported_vol_total (products : List Product) (a : Assignment) : Int :=
  ((selectedRows products a).map (fun p => p.product_volume)).sum

/-- `prods['product_volume'].sum() / config['volume_factor']` — Python
true division, modelled in `ℚ`. -/
def reported_sum_v (products : List Product) (config : Config)
    (a : Assignment) : Rat :=
  (reported_vol_total products a : Rat) / (config.volume_factor : Rat)

/-- `prods['product_price'].sum()` in `__solution_prepare`. -/
def reported_sum_w (products : List Product) (a : Assignment) : Int :=
  ((selectedRows products a).map (fun p => p.product_price)).sum

/-- Totals recomputed per the spec (§4.4, §8): sums of the Catalog's stored
attributes over exactly the indicator-selected indices. -/
def spec_total_value (products : List Product) (a : Assignment) : Int :=
  ((specSelectedIdx products.length a).map
    (fun i => (products.getD i default).convenience_value)).sum

/-- Spec-side scaled volume total over the selected indices. -/
def spec_vol_total (products : List Product) (a : Assignment) : Int :=
  ((specSelectedIdx products.length a).map
    (fun i => (products.getD i default).product_volume)).sum

/-- Spec-side volume total: sum of stored volumes over the selected
indices, divided back by the scaling factor into original units. -/
def spec_total_volume (products : List Product) (config : Config)
    (a : Assignment) : Rat :=
  (spec_vol_total products a : Rat) / (config.volume_factor : Rat)

/-- Spec-side price total over the selected indices. -/
def spec_total_price (products : List Product) (a : Assignment) : Int :=
  ((specSelectedIdx products.length a).map
    (fun i => (products.getD i default).product_price)).sum

/-! ### The status dispatch and the accumulation loop -/

/-- One shelter's solve as seen by the loop in `solve`: the shelter's name,
the terminal status the engine reported (cp_model: UNKNOWN=0,
MODEL_INVALID=1, FEASIBLE=2, INFEASIBLE=3, OPTIMAL=4), and the rows
`__solution_prepare` would return were the status a success. -/
structure ShelterRun where
  name : String
  status : Nat
  prepared : List Product
deriving DecidableEq, Repr

instance : Inhabited ShelterRun := ⟨⟨"", 0, []⟩⟩

/-- Lines 123-127 of `__linear_solver`: `if status == 4` return the
prepared rows, else print the diagnostic and return an empty frame. -/
def interpretStatus (status : Nat) (shelterName : String)
    (prepared : List Product) : List Product × Option String :=
  if status = 4 then (prepared, none)
  else ([], some ("Can't find solution for " ++ shelterName))

/-- The per-shelter loop of `solve` (lines 143-144): every shelter is
solved in turn; the first component collects each shelter's returned rows,
the second the printed diagnostics. -/
def runShelters (runs : List ShelterRun) : List (List Product) × List String :=
  (runs.map (fun r => (interpretStatus r.status r.name r.prepared).1),
   runs.filterMap (fun r => (interpretStatus r.status r.name r.prepared).2))

/-- Lines 141,145-149 of `solve`: `output` starts as `None`; a non-empty
solution frame is concatenated onto it (or becomes it). -/
def accumulate (solutions : List (List Product)) : Option (List Product) :=
  solutions.foldl
    (fun output sol =>
      if 0 < sol.length then some (output.getD [] ++ sol) else output)
    none

/-- Lines 150-151 of `solve`: `if output.shape[0] > 0: output.to_csv(...)`.
When `output` is still `None`, the attribute access `output.shape` raises;
otherwise the run ends normally, the boolean recording whether the output
file was written. -/
def finalize (output : Option (List Product)) : Except String Bool :=
  match output with
  | none => Except.error "AttributeError: NoneType has no attribute shape"
  | some rows => Except.ok (decide (0 < rows.length))

/-- The tail of `solve`: run every shelter, accumulate, finalize. -/
def solveRun (runs : List ShelterRun) : Except String Bool :=
  finalize (accumulate (runShelters runs).1)

/-! ### Concrete fixtures

`catW`/`cfgW`/`shelterW`/`aW` form a feasible model used by the witness
theorems; `cat2`/`cfgC1`/`shelterC1` exhibit the off-by-one in the
category ranges. -/

def foodA : Product := ⟨1, "product_food", 5, 10, 2⟩
def foodB : Product := ⟨2, "product_food", 3, 20, 4⟩
def medC : Product := ⟨3, "product_medicines", 8, 15, 6⟩
def medD : Product := ⟨4, "product_medicines", 1, 1, 1⟩
def supE : Product := ⟨5, "product_supplies", 0, 7, 3⟩
def supF : Product := ⟨6, "product_supplies", 2, 5, 2⟩

/-- A sorted six-product catalog: two foods, two medicines, two supplies;
`supE` has convenience value 0. -/
def catW : List Product := [foodA, foodB, medC, medD, supE, supF]

def cfgW : Config := ⟨1, 0, 100, 8⟩

def shelterW : Shelter :=
  [("product_food", [1]), ("product_medicines", [1]),
   ("product_supplies", [0])]

/-- A feasible assignment for `catW`/`cfgW`/`shelterW`: products 0 and 2
selected. -/
def aW : Assignment :=
  ⟨[5, 0, 8, 0, 0, 0], [10, 0, 15, 0, 0, 0], [2, 0, 6, 0, 0, 0],
   [true, false, true, false, false, false]⟩

/-- A sorted catalog of two food products, each of convenience value,
volume and price 1. -/
def cat2 : List Product :=
  [⟨1, "product_food", 1, 1, 1⟩, ⟨2, "product_food", 1, 1, 1⟩]

def cfgC1 : Config := ⟨1, 0, 10, 2⟩

/-- Exact-count rule: exactly 1 food product. -/
def shelterC1 : Shelter := [("product_food", [1])]

/-- The assignment selecting both products of `cat2`. -/
def aC1 : Assignment := ⟨[1, 1], [1, 1], [1, 1], [true, true]⟩

/-- A shelter whose dict also holds a rule for `product_medicines`, a
category absent from `cat2`. -/
def shelterC4 : Shelter := [("product_food", [1]), ("product_medicines", [2])]

/-! ### Helper lemmas -/

/-- In a feasible assignment the strict-positivity link makes
`vars_p[i] > 0` equivalent to `bools[i]` being true. -/
lemma feasible_pos_iff {products : List Product} {config : Config}
    {shelter : Shelter} {a : Assignment}
    (h : Feasible products config shelter a) :
    ∀ i < products.length,
      (0 < a.vars_p.getD i 0 ↔ a.bools.getD i false = true) := by
  intro i hi
  obtain ⟨-, -, -, -, -, -, -, -, -, -, hlink, -, -, -⟩ := h
  obtain ⟨ht, hf⟩ := hlink i hi
  cases hb : a.bools.getD i false
  · have h0 := hf hb
    constructor
    · intro hp; exfalso; omega
    · intro hc; exact absurd hc (by simp)
  · exact ⟨fun _ => rfl, fun _ => ht hb⟩

/-- The set of indices `__solution_prepare` extracts by reading `vars_p`
values coincides with the indicator-true set. -/
lemma selected_eq_spec {products : List Product} {config : Config}
    {shelter : Shelter} {a : Assignment}
    (h : Feasible products config shelter a) :
    selectedIdx products.length a = specSelectedIdx products.length a := by
  unfold selectedIdx specSelectedIdx
  apply List.filter_congr
  intro i hi
  have hi' : i < products.length := List.mem_range.mp hi
  have hiff := feasible_pos_iff h i hi'
  cases hb : a.bools.getD i false
  · have hneg : ¬ 0 < a.vars_p.getD i 0 := fun hp => by
      rw [hb] at hiff
      simpa using hiff.mp hp
    exact decide_eq_false hneg
  · exact decide_eq_true (hiff.mpr hb)

/-- A list's sum written as a sum over its index range. -/
lemma sum_eq_range_sum (l : List Int) :
    l.sum = ((List.range l.length).map (fun i => l.getD i 0)).sum := by
  induction l with
  | nil => rfl
  | cons x xs ih =>
    rw [List.length_cons, List.range_succ_eq_map, List.map_cons,
      List.map_map]
    simp only [List.getD_cons_zero, List.sum_cons]
    have hmap :
        List.map ((fun i => (x :: xs).getD i 0) ∘ Nat.succ)
            (List.range xs.length) =
          List.map (fun i => xs.getD i 0) (List.range xs.length) :=
      List.map_congr_left (fun i _ => rfl)
    rw [hmap, ih]

/-- Summing a mapped filter equals summing an if-then-else map. -/
lemma filter_map_sum (l : List Nat) (b : Nat → Bool) (f : Nat → Int) :
    ((l.filter b).map f).sum =
      (l.map (fun i => if b i then f i else 0)).sum := by
  induction l with
  | nil => rfl
  | cons x xs ih =>
    by_cases hb : b x
    · simp [List.filter_cons, hb, ih]
    · simp [List.filter_cons, hb, ih]

/-- Transfer lemma: the sum of a catalog attribute over the
indicator-selected indices equals the sum of the corresponding
contribution variables, whenever the reified link holds. -/
lemma spec_sum_eq_vars {products : List Product} {a : Assignment}
    (vals : List Int) (f : Product → Int)
    (hlen : vals.length = products.length)
    (hlink : ∀ i < products.length,
      (a.bools.getD i false = true →
          vals.getD i 0 = f (products.getD i default)) ∧
        (a.bools.getD i false = false → vals.getD i 0 = 0)) :
    ((specSelectedIdx products.length a).map
        (fun i => f (products.getD i default))).sum = vals.sum := by
  rw [sum_eq_range_sum vals, hlen]
  unfold specSelectedIdx
  rw [filter_map_sum]
  apply congrArg List.sum
  apply List.map_congr_left
  intro i hi
  have hi' : i < products.length := List.mem_range.mp hi
  obtain ⟨ht, hf⟩ := hlink i hi'
  cases hb : a.bools.getD i false
  · rw [hf hb]
    simp
  · rw [ht hb]
    simp

/-- The fixture assignment `aW` is feasible for `catW`. -/
lemma feasible_aW : Feasible catW cfgW shelterW aW := by
  refine ⟨rfl, rfl, rfl, rfl, by decide, by decide, by decide, by decide,
    by decide, by decide, by decide, by decide, by decide,
    ⟨[CatC.exact 0 1 1, CatC.exact 2 3 1, CatC.exact 4 5 0],
      by decide, by decide⟩⟩

/-! ### Claim theorems -/

/-- C5: in every feasible assignment of a built model, a product's
quantity-contribution variable is strictly positive iff its boolean
indicator is true; hence the set of indices `__solution_prepare` extracts
by reading `vars_p` values equals the indicator-true set the spec
prescribes. -/
theorem positive_quantity_iff_indicator (products : List Product)
    (config : Config) (shelter : Shelter) (a : Assignment)
    (h : Feasible products config shelter a) :
    (∀ i < products.length,
      (0 < a.vars_p.getD i 0 ↔ a.bools.getD i false = true)) ∧
      selectedIdx products.length a = specSelectedIdx products.length a :=
  ⟨feasible_pos_iff h, selected_eq_spec h⟩

theorem positive_quantity_iff_indicator_witness :
    Feasible catW cfgW shelterW aW ∧
      ((∀ i < catW.length,
        (0 < aW.vars_p.getD i 0 ↔ aW.bools.getD i false = true)) ∧
        selectedIdx catW.length aW = specSelectedIdx catW.length aW) :=
  ⟨feasible_aW,
    positive_quantity_iff_indicator catW cfgW shelterW aW feasible_aW⟩

/-- C6: the total price reported for a returned Allocation — the sum of
the catalog's stored prices over exactly the selected indices — equals the
configured `price_meet` exactly. -/
theorem reported_price_equals_price_meet (products : List Product)
    (config : Config) (shelter : Shelter) (a : Assignment)
    (h : Feasible products config shelter a) :
    reported_sum_w products a = config.price_meet := by
  have hsel := selected_eq_spec h
  obtain ⟨-, -, hw_len, -, -, -, -, -, -, hw_sum, -, -, hlink_w, -⟩ := h
  unfold reported_sum_w selectedRows
  rw [hsel, List.map_map]
  have htrans := spec_sum_eq_vars
    a.vars_w (fun p => p.product_price) hw_len hlink_w
  exact htrans.trans hw_sum

theorem reported_price_equals_price_meet_witness :
    Feasible catW cfgW shelterW aW ∧
      reported_sum_w catW aW = cfgW.price_meet :=
  ⟨feasible_aW,
    reported_price_equals_price_meet catW cfgW shelterW aW feasible_aW⟩

/-- C8: the reported convenience-value, volume and price totals equal the
sums of the catalog's stored attributes over exactly the selected indices,
the volume total divided back by the scaling factor. -/
theorem reported_totals_from_catalog (products : List Product)
    (config : Config) (shelter : Shelter) (a : Assignment)
    (h : Feasible products config shelter a) :
    reported_sum_p products a = spec_total_value products a ∧
      reported_sum_v products config a = spec_total_volume products config a ∧
      reported_sum_w products a = spec_total_price products a := by
  have hsel := selected_eq_spec h
  refine ⟨?_, ?_, ?_⟩
  · unfold reported_sum_p spec_total_value selectedRows
    rw [hsel, List.map_map]
    rfl
  · unfold reported_sum_v spec_total_volume reported_vol_total
      spec_vol_total selectedRows
    rw [hsel, List.map_map]
    rfl
  · unfold reported_sum_w spec_total_price selectedRows
    rw [hsel, List.map_map]
    rfl

theorem reported_totals_from_catalog_witness :
    Feasible catW cfgW shelterW aW ∧
      (reported_sum_p catW aW = spec_total_value catW aW ∧
        reported_sum_v catW cfgW aW = spec_total_volume catW cfgW aW ∧
        reported_sum_w catW aW = spec_total_price catW aW) :=
  ⟨feasible_aW,
    reported_totals_from_catalog catW cfgW shelterW aW feasible_aW⟩

/-- C10: a product of convenience value 0 is never selected: in every
feasible assignment its indicator is false (its quantity variable has
domain `{0}` yet must be positive when the indicator is true), so it never
appears in the extracted index set of a returned Allocation. -/
theorem zero_convenience_never_selected (products : List Product)
    (config : Config) (shelter : Shelter) (a : Assignment) (i : Nat)
    (h : Feasible products config shelter a) (hi : i < products.length)
    (hz : (products.getD i default).convenience_value = 0) :
    a.bools.getD i false = false ∧ i ∉ selectedIdx products.length a := by
  have hiff := feasible_pos_iff h i hi
  obtain ⟨-, -, -, -, hp_dom, -, -, -, -, -, -, -, -, -⟩ := h
  obtain ⟨hge, hle⟩ := hp_dom i hi
  rw [hz] at hle
  have hp0 : a.vars_p.getD i 0 = 0 := le_antisymm hle hge
  constructor
  · cases hb : a.bools.getD i false
    · rfl
    · exfalso
      have := hiff.mpr hb
      omega
  · intro hmem
    have hdec := (List.mem_filter.mp hmem).2
    have := of_decide_eq_true hdec
    omega

theorem zero_convenience_never_selected_witness :
    Feasible catW cfgW shelterW aW ∧ 4 < catW.length ∧
      (catW.getD 4 default).convenience_value = 0 ∧
      (aW.bools.getD 4 false = false ∧ 4 ∉ selectedIdx catW.length aW) :=
  ⟨feasible_aW, by decide, by decide,
    zero_convenience_never_selected catW cfgW shelterW aW 4 feasible_aW
      (by decide) (by decide)⟩

/-- `getD` at an in-bounds index is `get`. -/
lemma getD_eq_get {α : Type} [Inhabited α] (L : List α) (p : Nat)
    (hp : p < L.length) : L.getD p default = L.get ⟨p, hp⟩ := by
  rw [List.getD_eq_getElem?_getD, List.getElem?_eq_getElem hp]
  rfl

/-- The sort key is monotone in `product_type` along a sorted catalog. -/
lemma sorted_type_mono {l : List Product} (p q : Nat) (hpq : p ≤ q)
    (hq : q < (sortProducts l).length) :
    ((sortProducts l).getD p default).product_type ≤
      ((sortProducts l).getD q default).product_type := by
  have hs : (sortProducts l).Sorted prodLE :=
    List.sorted_insertionSort prodLE l
  have hp : p < (sortProducts l).length := Nat.lt_of_le_of_lt hpq hq
  rcases Nat.lt_or_ge p q with hlt | hge
  · have hrel := hs.rel_get_of_lt
      (a := ⟨p, hp⟩) (b := ⟨q, hq⟩) (by exact hlt)
    rw [getD_eq_get _ p hp, getD_eq_get _ q hq]
    rcases hrel with h1 | ⟨h1, -⟩
    · exact le_of_lt h1
    · exact le_of_eq h1
  · have hpq' : p = q := le_antisymm hpq hge
    subst hpq'
    exact le_rfl

/-- C9: after normalization (sort by `product_type` then `article`,
positions re-indexed from 0), the indices of any product type form a
contiguous block: whenever positions `i ≤ j ≤ k` have the same type at
`i` and `k`, position `j` carries that type too. -/
theorem sorted_catalog_category_contiguous (l : List Product)
    (i j k : Nat) (hk : k < (sortProducts l).length) (hij : i ≤ j)
    (hjk : j ≤ k)
    (hik : ((sortProducts l).getD i default).product_type =
      ((sortProducts l).getD k default).product_type) :
    ((sortProducts l).getD j default).product_type =
      ((sortProducts l).getD i default).product_type := by
  have h1 := sorted_type_mono i j hij (Nat.lt_of_le_of_lt hjk hk)
  have h2 := sorted_type_mono j k hjk hk
  rw [← hik] at h2
  exact le_antisymm h2 h1

def catC9 : List Product := [foodA]

theorem sorted_catalog_category_contiguous_witness :
    (0 < (sortProducts catC9).length ∧
      ((sortProducts catC9).getD 0 default).product_type =
        ((sortProducts catC9).getD 0 default).product_type) ∧
      ((sortProducts catC9).getD 0 default).product_type =
        ((sortProducts catC9).getD 0 default).product_type :=
  ⟨⟨by decide, rfl⟩,
    sorted_catalog_category_contiguous catC9 0 0 0 (by decide)
      (Nat.le_refl 0) (Nat.le_refl 0) rfl⟩

/-- C7: only engine status 4 (optimal-found) counts as success; every
other status yields an empty result frame and a printed diagnostic for
that shelter, and the loop still produces one result per shelter. -/
theorem only_optimal_status_succeeds (runs : List ShelterRun) (i : Nat)
    (hi : i < runs.length) :
    (runShelters runs).1.length = runs.length ∧
      ((runs.getD i default).status = 4 →
        (runShelters runs).1.getD i [] = (runs.getD i default).prepared) ∧
      ((runs.getD i default).status ≠ 4 →
        (runShelters runs).1.getD i [] = [] ∧
          ("Can't find solution for " ++ (runs.getD i default).name) ∈
            (runShelters runs).2) := by
  have h1 : runs.getD i default = runs[i] := by
    rw [List.getD_eq_getElem?_getD, List.getElem?_eq_getElem hi]
    rfl
  have hgetD : (runShelters runs).1.getD i [] =
      (interpretStatus (runs.getD i default).status
        (runs.getD i default).name (runs.getD i default).prepared).1 := by
    rw [h1]
    simp [runShelters, List.getD_eq_getElem?_getD, List.getElem?_map,
      List.getElem?_eq_getElem hi]
  refine ⟨by simp [runShelters], ?_, ?_⟩
  · intro h4
    rw [h1] at h4
    rw [hgetD, h1]
    simp [interpretStatus, h4]
  · intro hne
    rw [h1] at hne
    constructor
    · rw [hgetD, h1]
      simp [interpretStatus, hne]
    · apply List.mem_filterMap.mpr
      refine ⟨runs[i], List.getElem_mem hi, ?_⟩
      rw [h1]
      simp [interpretStatus, hne]

def runsC7 : List ShelterRun := [⟨"s1", 3, []⟩]

/-- Folding the accumulator over failure-only solutions leaves it `none`. -/
lemma accumulate_all_empty (solutions : List (List Product)) :
    (∀ s ∈ solutions, s = []) → accumulate solutions = none := by
  unfold accumulate
  induction solutions with
  | nil => intro _; rfl
  | cons s rest ih =>
    intro hall
    rw [List.foldl_cons]
    have hs : s = [] := hall s (List.mem_cons_self s rest)
    subst hs
    simpa using ih (fun t ht => hall t (List.mem_cons_of_mem _ ht))

/-- C3 (refuting the claim): when no shelter's solve reports status 4,
`output` is still `None` at the end of `solve` and the final
`output.shape[0]` access raises `AttributeError` — the run does not
complete normally. -/
theorem empty_run_raises_attribute_error (runs : List ShelterRun)
    (hfail : ∀ r ∈ runs, r.status ≠ 4) :
    solveRun runs =
      Except.error "AttributeError: NoneType has no attribute shape" := by
  unfold solveRun
  have hall : ∀ s ∈ (runShelters runs).1, s = [] := by
    intro s hs
    obtain ⟨r, hr, hrs⟩ := List.mem_map.mp hs
    rw [← hrs]
    simp [interpretStatus, hfail r hr]
  rw [accumulate_all_empty _ hall]
  rfl

theorem empty_run_raises_attribute_error_witness :
    (∀ r ∈ runsC7, r.status ≠ 4) ∧
      solveRun runsC7 =
        Except.error "AttributeError: NoneType has no attribute shape" :=
  ⟨by decide, empty_run_raises_attribute_error runsC7 (by decide)⟩

/-- C4 (refuting the claim): `shelterC4` holds a rule for
`product_medicines`, a category no product of `cat2` has, yet the
restriction build succeeds — the rule is silently ignored, with no
constraint over medicines and no error. -/
theorem missing_category_silently_skipped :
    lookupRule shelterC4 "product_medicines" = some [2] ∧
      (∀ p ∈ cat2, p.product_type ≠ "product_medicines") ∧
      product_type_restrictions cat2 shelterC4 =
        some [CatC.exact 0 1 1] := by
  refine ⟨rfl, by decide, ?_⟩
  rfl

/-- C4 (amended): restriction emission fails (`KeyError`) exactly when
some catalog category has no rule in the shelter dict; a shelter rule for
a category absent from the catalog never causes a failure. -/
theorem emission_fails_iff_catalog_category_unruled
    (pt : List (String × Nat × Nat)) (shelter : Shelter) :
    emitRestrictions pt shelter = none ↔
      ∃ e ∈ pt, lookupRule shelter e.1 = none := by
  induction pt with
  | nil => simp [emitRestrictions]
  | cons hd rest ih =>
    obtain ⟨t, s, e⟩ := hd
    constructor
    · intro hnone
      unfold emitRestrictions at hnone
      cases hlk : lookupRule shelter t with
      | none => exact ⟨(t, s, e), List.mem_cons_self _ _, hlk⟩
      | some rule =>
        rw [hlk] at hnone
        cases hrest : emitRestrictions rest shelter with
        | none =>
          obtain ⟨e', he', hlk'⟩ := ih.mp hrest
          exact ⟨e', List.mem_cons_of_mem _ he', hlk'⟩
        | some cs =>
          rw [hrest] at hnone
          by_cases hlen : 1 < rule.length <;> simp [hlen] at hnone
    · intro ⟨e', he', hlk'⟩
      unfold emitRestrictions
      rcases List.mem_cons.mp he' with heq | hmem
      · subst heq
        rw [hlk']
      · cases hlk : lookupRule shelter t with
        | none => rfl
        | some rule =>
          have hrest : emitRestrictions rest shelter = none :=
            ih.mpr ⟨e', hmem, hlk'⟩
          rw [hrest]

def shelterC2 : Shelter := [("product_food", [1])]

/-- Feasibility for `cat2` under the exact-count-1 food rule forces both
products selected: the price target 2 forces `vars_w = [1, 1]`, hence both
indicators true, hence both `vars_p` positive; the objective is at most
2. -/
lemma cat2_feasible_facts (a : Assignment)
    (h : Feasible cat2 cfgC1 shelterC1 a) :
    0 < a.vars_p.getD 0 0 ∧ 0 < a.vars_p.getD 1 0 ∧ objVal a ≤ 2 := by
  obtain ⟨hp_len, -, hw_len, hb_len, hp_dom, -, hw_dom, -, -, hw_sum,
    hlink_p, -, hlink_w, -⟩ := h
  have hp_len' : a.vars_p.length = 2 := hp_len
  have hw_len' : a.vars_w.length = 2 := hw_len
  have hb_len' : a.bools.length = 2 := hb_len
  obtain ⟨p0, p1, hp⟩ := List.length_eq_two.mp hp_len'
  obtain ⟨w0, w1, hw⟩ := List.length_eq_two.mp hw_len'
  obtain ⟨b0, b1, hb⟩ := List.length_eq_two.mp hb_len'
  have hw0 := hw_dom 0 (by decide)
  have hw1 := hw_dom 1 (by decide)
  have hp0 := hp_dom 0 (by decide)
  have hp1 := hp_dom 1 (by decide)
  have hlw0 := hlink_w 0 (by decide)
  have hlw1 := hlink_w 1 (by decide)
  have hlp0 := hlink_p 0 (by decide)
  have hlp1 := hlink_p 1 (by decide)
  rw [hw] at hw0 hw1 hw_sum hlw0 hlw1
  rw [hp] at hp0 hp1 hlp0 hlp1
  rw [hb] at hlw0 hlw1 hlp0 hlp1
  simp only [cat2, cfgC1, List.getD_cons_zero, List.getD_cons_succ,
    List.sum_cons, List.sum_nil] at hw0 hw1 hw_sum hp0 hp1 hlw0 hlw1
  simp only [List.getD_cons_zero, List.getD_cons_succ] at hlp0 hlp1
  have hw0' : w0 = 1 := by omega
  have hw1' : w1 = 1 := by omega
  have hb0 : b0 = true := by
    cases b0
    · exfalso
      have := hlw0.2 rfl
      omega
    · rfl
  have hb1 : b1 = true := by
    cases b1
    · exfalso
      have := hlw1.2 rfl
      omega
    · rfl
  have hpos0 : 0 < p0 := hlp0.1 hb0
  have hpos1 : 0 < p1 := hlp1.1 hb1
  refine ⟨?_, ?_, ?_⟩
  · rw [hp]
    simpa using hpos0
  · rw [hp]
    simpa using hpos1
  · unfold objVal
    rw [hp]
    simp only [List.sum_cons, List.sum_nil]
    omega

/-- The both-selected assignment `aC1` is feasible for `cat2`. -/
lemma feasible_aC1 : Feasible cat2 cfgC1 shelterC1 aC1 := by
  refine ⟨rfl, rfl, rfl, rfl, by decide, by decide, by decide, by decide,
    by decide, by decide, by decide, by decide, by decide,
    ⟨[CatC.exact 0 1 1], by decide, by decide⟩⟩

/-- C1 (refuting the claim): `cat2`'s food category is governed by the
exact-count rule `n = 1` (the emitted constraint is
`sum(bools[0:1]) == 1`), yet because the slice misses the last food index,
every feasible assignment — in particular the optimal one the engine
returns — selects BOTH food products: the extracted index set always has
length 2, not 1. -/
theorem exact_count_rule_not_enforced :
    product_type_restrictions cat2 shelterC1 = some [CatC.exact 0 1 1] ∧
      (∀ a, Feasible cat2 cfgC1 shelterC1 a →
        (selectedIdx cat2.length a).length = 2) ∧
      ∃ a, OptimalFor cat2 cfgC1 shelterC1 a := by
  refine ⟨rfl, ?_, ?_⟩
  · intro a h
    obtain ⟨h0, h1, -⟩ := cat2_feasible_facts a h
    have hr : selectedIdx cat2.length a = [0, 1] := by
      show (List.range 2).filter
        (fun i => decide (0 < a.vars_p.getD i 0)) = [0, 1]
      have hrange : List.range 2 = [0, 1] := rfl
      rw [hrange]
      have h0' := h0
      have h1' := h1
      simp only [List.getD_eq_getElem?_getD] at h0' h1'
      simp [List.filter_cons, h0', h1']
    rw [hr]
    rfl
  · refine ⟨aC1, feasible_aC1, ?_⟩
    intro b hb
    obtain ⟨-, -, hle⟩ := cat2_feasible_facts b hb
    have hobj : objVal aC1 = 2 := rfl
    rw [hobj]
    exact hle

/-- C2 (refuting the claim): for the two-food catalog `cat2` the derived
table records `end = 1`, the position OF the last food row, not one past
it; the emitted constraint therefore sums `bools[0:1]`, which covers only
index 0: selecting only product 1 (a food product) leaves the sum at 0,
while the spec's range `[start, one-past-last) = [0, 2)` would count it. -/
theorem category_range_end_off_by_one :
    prodsTypeTable cat2 = [("product_food", 0, 1)] ∧
      (cat2.getD 1 default).product_type = "product_food" ∧
      startIdx cat2 "product_food" = 0 ∧
      lastIdx cat2 "product_food" = 1 ∧
      product_type_restrictions cat2 shelterC2 =
        some [CatC.exact 0 1 1] ∧
      boolSum [false, true] 0 1 = 0 ∧
      boolSum [false, true] 0 2 = 1 := by
  refine ⟨?_, by decide, by decide, by decide, ?_, by decide, by decide⟩
  · rfl
  · rfl

theorem only_optimal_status_succeeds_witness :
    0 < runsC7.length ∧
      ((runShelters runsC7).1.length = runsC7.length ∧
        ((runsC7.getD 0 default).status = 4 →
          (runShelters runsC7).1.getD 0 [] =
            (runsC7.getD 0 default).prepared) ∧
        ((runsC7.getD 0 default).status ≠ 4 →
          (runShelters runsC7).1.getD 0 [] = [] ∧
            ("Can't find solution for " ++ (runsC7.getD 0 default).name) ∈
              (runShelters runsC7).2)) :=
  ⟨by decide, only_optimal_status_succeeds runsC7 0 (by decide)⟩
